import Mathlib

set_option maxRecDepth 200000

/-!
Verification development for the streaming linear-regression unit of the
repository (`Project2/ScalableAlgorithms/PythonScripts/linearRegression.py`
together with `Project2/ModuleDir/functions.py`).

The Python code is shallowly embedded: Python strings are Lean `String`s,
Python `int`/`float` values are `ℤ`/`ℚ`, numpy matrices are functions out of
`Fin 4`, and Python exceptions are modelled by `Except PyErr`.  The embedding
follows the source line by line; the orchestration loop of
`linearRegression.py` is a fold over the file list with the source's
`try/except` structure made explicit.
-/

/-- The Python exception classes that the script can raise.  `valueError` and
`zeroDivisionError` are the two classes caught by the per-file `except` clause
(line 106 of `linearRegression.py`); the others propagate and abort the run. -/
inductive PyErr where
  | valueError
  | zeroDivisionError
  | assertionError
  | keyError
  | indexError
  | nameError
deriving DecidableEq, Repr

instance {ε α : Type} [DecidableEq ε] [DecidableEq α] : DecidableEq (Except ε α)
  | .ok a, .ok b => decidable_of_iff (a = b) (by simp)
  | .error a, .error b => decidable_of_iff (a = b) (by simp)
  | .ok _, .error _ => isFalse (by simp)
  | .error _, .ok _ => isFalse (by simp)

/-- Strip leading and trailing whitespace, as Python `int()`/`float()` do on
their string argument. -/
def pyStrip (l : List Char) : List Char :=
  ((l.dropWhile Char.isWhitespace).reverse.dropWhile Char.isWhitespace).reverse

/-- All characters are ASCII decimal digits. -/
def allDigits (l : List Char) : Bool := l.all Char.isDigit

/-- Numeric value of a (digit) character list, most significant digit first. -/
def natOfDigits (l : List Char) : ℕ := l.foldl (fun a c => a * 10 + (c.toNat - 48)) 0

/-- Parse a nonempty run of digits as a natural number, as the unsigned core
of Python `int()`. -/
def parseUnsignedInt (l : List Char) : Option ℤ :=
  if allDigits l && !l.isEmpty then some (natOfDigits l) else none

/-- Python `int(s)` on the decimal strings this program feeds it: strip
whitespace, optional sign, then a nonempty digit run; `none` models the
`ValueError` raise. -/
def pyIntL (l : List Char) : Option ℤ :=
  match pyStrip l with
  | '+' :: r => parseUnsignedInt r
  | '-' :: r => (parseUnsignedInt r).map Neg.neg
  | t => parseUnsignedInt t

/-- Python `int` on a Lean `String`. -/
def pyInt (s : String) : Option ℤ := pyIntL s.toList

/-- Unsigned core of Python `float()` restricted to plain decimal literals
(`"1850"`, `"18.5"`, `".5"`, `"185."`): an optional integer part, an optional
`.` and fractional part, at least one digit overall.  The survey fields this
program decodes are exactly such strings. -/
def parseUnsignedDec (l : List Char) : Option ℚ :=
  match l.span (fun c => c ≠ '.') with
  | (ip, []) =>
      if allDigits ip && !ip.isEmpty then some ((natOfDigits ip : ℚ)) else none
  | (ip, _ :: fp) =>
      if allDigits ip && allDigits fp && !(ip.isEmpty && fp.isEmpty) then
        some ((natOfDigits ip : ℚ) + (natOfDigits fp : ℚ) / (10 : ℚ) ^ fp.length)
      else none

/-- Python `float(s)` on the decimal strings this program feeds it. -/
def pyFloatL (l : List Char) : Option ℚ :=
  match pyStrip l with
  | '+' :: r => parseUnsignedDec r
  | '-' :: r => (parseUnsignedDec r).map Neg.neg
  | t => parseUnsignedDec t

/-- Python `float` on a Lean `String`. -/
def pyFloat (s : String) : Option ℚ := pyFloatL s.toList

/-- `int(s)` as an `Except` computation: a failed parse is a `ValueError`. -/
def intE (s : String) : Except PyErr ℤ :=
  match pyInt s with
  | some v => .ok v
  | none => .error .valueError

/-- `float(s)` as an `Except` computation: a failed parse is a `ValueError`. -/
def floatE (s : String) : Except PyErr ℚ :=
  match pyFloat s with
  | some v => .ok v
  | none => .error .valueError

/-- `functions.getIncome`: sentinel 9 when the substring is exactly two
blanks, otherwise `int(incomeString)`. -/
def getIncome (incomeString : String) : Except PyErr ℤ :=
  if incomeString ≠ "  " then intE incomeString else .ok 9

/-- `functions.getEducation`: sentinel 9 when the substring is a single
blank, otherwise `int(educationString)`. -/
def getEducation (educationString : String) : Except PyErr ℤ :=
  if educationString ≠ " " then intE educationString else .ok 9

/-- One of the four sequential `if` statements of `functions.convertBMI`:
when `cond` holds, re-assign `bmi` to `scale * float(bmiString)`, otherwise
keep the previous value `b`. -/
def bmiStep (bmiString : String) (cond : Prop) [Decidable cond] (scale b : ℚ) :
    Except PyErr ℚ :=
  if cond then (floatE bmiString).map (fun v => scale * v) else pure b

/-- `functions.convertBMI`: `bmi` starts at 0 and each survey-year generation
re-assigns it from its own scale factor unless the generation's sentinel
string matches.  The four `if`s run in sequence exactly as in the source. -/
def convertBMI (bmiString : String) (shortYear : ℤ) : Except PyErr ℚ :=
  (bmiStep bmiString (shortYear = 0 ∧ bmiString ≠ "999") (1/10) 0).bind fun b1 =>
  (bmiStep bmiString (shortYear = 1 ∧ bmiString ≠ "999999") (1/10000) b1).bind fun b2 =>
  (bmiStep bmiString ((2 ≤ shortYear ∧ shortYear ≤ 10) ∧ bmiString ≠ "9999") (1/100) b2).bind fun b3 =>
  bmiStep bmiString (10 < shortYear ∧ bmiString ≠ "    ") (1/100) b3

/-- `functions.getHlth`: blank gives the sentinel −1, otherwise
`int(hlthString)` with values above 6 collapsed to −1; the final membership
test models the source's `assert genhlth in (-1, 1, 2, 3, 4, 5, 6)`, whose
failure raises an (uncaught) `AssertionError`. -/
def getHlth (hlthString : String) : Except PyErr ℤ :=
  (if hlthString ≠ " " then (intE hlthString).map (fun g => if g > 6 then -1 else g)
   else .ok (-1)).bind fun genhlth =>
    if genhlth ∈ ([-1, 1, 2, 3, 4, 5, 6] : List ℤ) then .ok genhlth
    else .error .assertionError

/-- One entry of `functions.fieldDictBuild`: 1-based character positions of
the four fields of interest in a fixed-width record. -/
structure Fields where
  genhlth : ℕ
  bmiS : ℕ
  bmiE : ℕ
  incomeS : ℕ
  incomeE : ℕ
  education : ℕ
deriving DecidableEq, Repr

/-- `functions.fieldDictBuild` as a partial map from the two-digit year code.
The populated keys are 11–14; in the source the keys 0–3 exist but hold
`None` (no layout), and they are unreachable behind the orchestrator's
`shortYear < 11` skip, so a lookup outside 11–14 behaves as a missing key. -/
def fieldDict (shortYear : ℤ) : Option Fields :=
  if shortYear = 11 then some ⟨73, 1533, 1536, 124, 125, 122⟩
  else if shortYear = 12 then some ⟨73, 1644, 1647, 116, 117, 114⟩
  else if shortYear = 13 then some ⟨80, 2192, 2195, 152, 153, 150⟩
  else if shortYear = 14 then some ⟨80, 2247, 2250, 152, 153, 150⟩
  else none

/-- A decoded observation: the four typed field values of one record. -/
structure Obs where
  education : ℤ
  income : ℤ
  bmi : ℚ
  health : ℤ
deriving DecidableEq, Repr

abbrev Vec4 := Fin 4 → ℚ

abbrev Mat4 := Fin 4 → Fin 4 → ℚ

/-- The type of `np.linalg.pinv(A) @ z`, kept as a parameter of the
embedding: the library pseudo-inverse is external to the repository, and no
claim depends on its value — only on when it is invoked and on which state. -/
abbrev Est := Mat4 → Vec4 → Vec4

/-- The orchestrator's mutable state: the normal-equations accumulator
`A, z, sumSqrs, n` (STEP 11) plus the last computed coefficient estimate `b`
(STEP 13), which in Python is an ordinary variable that may still be
unassigned (`none`). -/
@[ext]
structure State where
  A : Mat4
  z : Vec4
  sumSqrs : ℚ
  n : ℕ
  b : Option Vec4

/-- STEP 11: `A = 0 (4×4)`, `z = 0 (4×1)`, `sumSqrs = 0`, `n = 0`;
`b` is not yet assigned. -/
def initState : State := ⟨fun _ _ => 0, fun _ => 0, 0, 0, none⟩

/-- The design vector `x = [1, income, education, bmi]ᵀ` (STEP 10). -/
def xvec (o : Obs) : Vec4 := ![1, (o.income : ℚ), (o.education : ℚ), o.bmi]

/-- STEP 12: `A += x xᵀ`, `z += x y`, `sumSqrs += y²`, `n += 1`. -/
def accumulate (st : State) (o : Obs) : State :=
  { A := fun i j => st.A i j + xvec o i * xvec o j
    z := fun i => st.z i + xvec o i * (o.health : ℚ)
    sumSqrs := st.sumSqrs + (o.health : ℚ) ^ 2
    n := st.n + 1
    b := st.b }

/-- The acceptance predicate of STEP 10:
`education < 9 and income < 9 and 0 < bmi < 99 and y != -1`. -/
def validObs (o : Obs) : Prop :=
  o.education < 9 ∧ o.income < 9 ∧ 0 < o.bmi ∧ o.bmi < 99 ∧ o.health ≠ -1

instance : DecidablePred validObs := fun o => by unfold validObs; infer_instance

/-- STEP 13: every 10,000 accepted observations (`n % 10_000 == 0 and
n != 0`), recompute `b = pinv(A) @ z` and print it (console output is not
modelled; the assignment to `b` is). -/
def progressStep (est : Est) (st : State) : State :=
  if st.n % 10000 = 0 ∧ st.n ≠ 0 then { st with b := some (est st.A st.z) } else st

/-- The effect of one accepted observation: accumulate, then the periodic
progress report. -/
def loopStep (est : Est) (st : State) (o : Obs) : State :=
  progressStep est (accumulate st o)

/-- The body of the inner `try` (STEP 10/12/13) for a decoded observation:
the rejected branch runs `1/0`, whose `ZeroDivisionError` the inner `except`
swallows, so rejection leaves the state untouched. -/
def innerStep (est : Est) (st : State) (o : Obs) : State :=
  if validObs o then loopStep est st o else st

/-- Folding the accepted-observation effect over a list. -/
def loopFold (est : Est) (st : State) (ω : List Obs) : State :=
  ω.foldl (loopStep est) st

/-- Python string indexing `record[i]` (a one-character string); an index out
of range raises `IndexError`, which no clause of the script catches. -/
def pyCharAt (record : String) (i : ℕ) : Except PyErr String :=
  if h : i < record.toList.length then .ok (String.mk [record.toList.get ⟨i, h⟩])
  else .error .indexError

/-- Python slicing `record[a:b]` (never raises; may be short or empty). -/
def pySlice (record : String) (a b : ℕ) : String :=
  String.mk ((record.toList.drop a).take (b - a))

/-- Lines 70–79: decode the four fields of one record, in source order
(education, income, bmi, health).  These calls sit *outside* the inner `try`,
so any error here escapes to the per-file handler. -/
def decodeRecord (fl : Fields) (shortYear : ℤ) (record : String) : Except PyErr Obs := do
  let eduStr ← pyCharAt record (fl.education - 1)
  let education ← getEducation eduStr
  let income ← getIncome (pySlice record (fl.incomeS - 1) fl.incomeE)
  let bmi ← convertBMI (pySlice record (fl.bmiS - 1) fl.bmiE) shortYear
  let hlthStr ← pyCharAt record (fl.genhlth - 1)
  let health ← getHlth hlthStr
  pure ⟨education, income, bmi, health⟩

/-- One iteration of `for record in reader`: decode (errors escape), then the
inner `try` body. -/
def processRecord (est : Est) (fl : Fields) (shortYear : ℤ) (st : State)
    (record : String) : Except PyErr State :=
  (decodeRecord fl shortYear record).map (innerStep est st)

/-- The record loop of one file: fold `processRecord` until the list is
exhausted or an error escapes; the state reached so far is kept either way
(the accumulator is module-level in Python and is not rolled back). -/
def foldRecords (est : Est) (fl : Fields) (shortYear : ℤ) :
    State → List String → State × Option PyErr
  | st, [] => (st, none)
  | st, r :: rs =>
    match processRecord est fl shortYear st r with
    | .ok st' => foldRecords est fl shortYear st' rs
    | .error e => (st, some e)

/-- A zip archive on disk: its filename and the record lines of each of its
members. -/
structure ZFile where
  name : String
  members : List (List String)

/-- Outcome of the filename-driven selection at the top of the file loop
(lines 47–54): `int(filename[6:8])` may fail (`ValueError`), a year before
2011 runs `1/0` (`ZeroDivisionError`), and a parsed code absent from
`fieldDict` raises `KeyError`. -/
inductive FileSel where
  | skipName
  | skipYear
  | missingYear (shortYear : ℤ)
  | proceed (shortYear : ℤ) (fl : Fields)
deriving DecidableEq, Repr

/-- Lines 47–54: parse `filename[6:8]`, apply the `shortYear < 11` cutoff,
then look the year up in the field dictionary. -/
def selectFile (filename : String) : FileSel :=
  match pyInt (pySlice filename 6 8) with
  | none => .skipName
  | some sy =>
    if sy < 11 then .skipYear
    else
      match fieldDict sy with
      | none => .missingYear sy
      | some fl => .proceed sy fl

/-- The body of one iteration of `for filename in fileList` (without the
enclosing `except`): selection, the single-member assertion
(`assert len(zipFileList) == 1`), then the record loop. -/
def processFile (est : Est) (st : State) (f : ZFile) : State × Option PyErr :=
  match selectFile f.name with
  | .skipName => (st, some .valueError)
  | .skipYear => (st, some .zeroDivisionError)
  | .missingYear _ => (st, some .keyError)
  | .proceed sy fl =>
    match f.members with
    | [m] => foldRecords est fl sy st m
    | _ => (st, some .assertionError)

/-- The file loop with its `except (ValueError, ZeroDivisionError): pass`:
those two error classes skip to the next file keeping the state built so
far; any other error aborts the whole run. -/
def runFiles (est : Est) (st : State) : List ZFile → Except PyErr State
  | [] => .ok st
  | f :: fs =>
    match processFile est st f with
    | (st', none) => runFiles est st' fs
    | (st', some .valueError) => runFiles est st' fs
    | (st', some .zeroDivisionError) => runFiles est st' fs
    | (_, some e) => .error e

/-- The valid observations a record list contributes, in order, cut off at
the first record whose decoding raises (the rest of the file is never
reached). -/
def acceptedOfRecords (fl : Fields) (shortYear : ℤ) : List String → List Obs
  | [] => []
  | r :: rs =>
    match decodeRecord fl shortYear r with
    | .ok o => (if validObs o then [o] else []) ++ acceptedOfRecords fl shortYear rs
    | .error _ => []

/-- The first decoding error a record list raises, if any. -/
def recsErr (fl : Fields) (shortYear : ℤ) : List String → Option PyErr
  | [] => none
  | r :: rs =>
    match decodeRecord fl shortYear r with
    | .ok _ => recsErr fl shortYear rs
    | .error e => some e

/-- The valid observations one archive contributes to the accumulator. -/
def acceptedOfFile (f : ZFile) : List Obs :=
  match selectFile f.name with
  | .proceed sy fl =>
    match f.members with
    | [m] => acceptedOfRecords fl sy m
    | _ => []
  | _ => []

/-- The full accepted observation stream of a run, in encounter order. -/
def acceptedStream (files : List ZFile) : List Obs :=
  (files.map acceptedOfFile).flatten

/-- `b.T @ z`: the scalar `(b.T @ z)[0,0]` of STEP 14. -/
def dotv (b z : Vec4) : ℚ := b 0 * z 0 + b 1 * z 1 + b 2 * z 2 + b 3 * z 3

/-- Round half to even at integer precision, the rounding Python's `round`
applies to the (exact, here rational) value. -/
def rndHalfEven (q : ℚ) : ℤ :=
  if q - ⌊q⌋ < 1/2 then ⌊q⌋
  else if 1/2 < q - ⌊q⌋ then ⌊q⌋ + 1
  else if ⌊q⌋ % 2 = 0 then ⌊q⌋ else ⌊q⌋ + 1

/-- Python `round(x, 3)`. -/
def round3 (q : ℚ) : ℚ := (rndHalfEven (q * 1000) : ℚ) / 1000

/-- What the final report (STEP 14–16) computes and emits: the intermediate
scalars, the header row, and the printed value row (`n` unrounded, the four
coefficients and the adjusted R² rounded to 3 decimal places). -/
structure FinalReport where
  ybar : ℚ
  varEst : ℚ
  rAdj : ℚ
  header : List String
  rowN : ℕ
  rowB : Vec4
  rowR2 : ℚ

/-- STEP 14–16 run on the final state.  Referencing the never-assigned `b`
raises `NameError`; otherwise `ybar = z[0,0]/n`,
`varEst = (sumSqrs - bᵀz)/(n - q)` with `q = 4`, and
`rAdj = 1 - ((n-1)/(n-4))·(sumSqrs - bᵀz)/(sumSqrs - n·ybar²)`. -/
def finalize (st : State) : Except PyErr FinalReport :=
  match st.b with
  | none => .error .nameError
  | some b =>
    let ybar : ℚ := st.z 0 / (st.n : ℚ)
    let varEst : ℚ := (st.sumSqrs - dotv b st.z) / ((st.n : ℚ) - 4)
    let rAdj : ℚ :=
      1 - (((st.n : ℚ) - 1) / ((st.n : ℚ) - 4)) *
        ((st.sumSqrs - dotv b st.z) / (st.sumSqrs - (st.n : ℚ) * ybar ^ 2))
    .ok ⟨ybar, varEst, rAdj, ["n", "b0", "inc", "edu", "bmi", "r^2_adj"],
      st.n, fun i => round3 (b i), round3 rAdj⟩

/-- A fixed stand-in estimator used by the concrete test runs below (its
value is irrelevant to every claim; only the call pattern matters). -/
def est₀ : Est := fun _ _ _ => 0

/-- The year-11 field layout, `fieldDict[11]`. -/
def fl11 : Fields := ⟨73, 1533, 1536, 124, 125, 122⟩

/-- A record whose education field (1-based position 122) holds a
non-numeric, non-blank character: decoding raises `ValueError`. -/
def badRec : String := String.mk (List.replicate 121 ' ' ++ ['X'])

/-- A fully valid year-11 record: genhlth `3` at position 73, education `4`
at position 122, income `07` at positions 124–125, bmi `1850` at positions
1533–1536; everything else blank.  It decodes to
`⟨4, 7, 18.5, 3⟩`, which passes the validity filter. -/
def goodRec : String :=
  String.mk (List.replicate 72 ' ' ++ '3' :: List.replicate 48 ' ' ++
    '4' :: ' ' :: '0' :: '7' :: List.replicate 1407 ' ' ++ ['1', '8', '5', '0'])

/-- Observation count of a run, `none` when the run aborted. -/
def runN (files : List ZFile) : Option ℕ :=
  match runFiles est₀ initState files with
  | .ok st => some st.n
  | .error _ => none

/-- The uncaught exception of an aborted run, if any. -/
def runErr (files : List ZFile) : Option PyErr :=
  match runFiles est₀ initState files with
  | .ok _ => none
  | .error e => some e

/-! ### Structural lemmas about the loop -/

/-- The accumulator fields of the state, bundled (everything but `b`). -/
def State.acc (st : State) : Mat4 × Vec4 × ℚ × ℕ := (st.A, st.z, st.sumSqrs, st.n)

lemma accumulate_comm (st : State) (a b : Obs) :
    accumulate (accumulate st a) b = accumulate (accumulate st b) a := by
  unfold accumulate
  ext <;> simp <;> ring

lemma foldl_accumulate_perm {l₁ l₂ : List Obs} (h : l₁.Perm l₂) (st : State) :
    l₁.foldl accumulate st = l₂.foldl accumulate st := by
  induction h generalizing st with
  | nil => rfl
  | cons x _ ih => simpa using ih (accumulate st x)
  | swap x y l => simp [List.foldl, accumulate_comm]
  | trans _ _ ih₁ ih₂ => rw [ih₁, ih₂]

lemma progressStep_acc (est : Est) (st : State) : (progressStep est st).acc = st.acc := by
  unfold progressStep; split <;> rfl

lemma accumulate_acc {st st' : State} (h : st.acc = st'.acc) (o : Obs) :
    (accumulate st o).acc = (accumulate st' o).acc := by
  simp only [State.acc, Prod.mk.injEq] at h ⊢
  obtain ⟨hA, hz, hs, hn⟩ := h
  simp [accumulate, hA, hz, hs, hn]

lemma loopFold_acc (est : Est) (ω : List Obs) :
    ∀ {st st' : State}, st.acc = st'.acc →
      (loopFold est st ω).acc = (ω.foldl accumulate st').acc := by
  induction ω with
  | nil => intro st st' h; exact h
  | cons o rest ih =>
    intro st st' h
    have hstep : (loopStep est st o).acc = (accumulate st' o).acc := by
      unfold loopStep
      rw [progressStep_acc]
      exact accumulate_acc h o
    exact ih hstep

lemma foldl_accumulate_n (ω : List Obs) : ∀ st : State,
    (ω.foldl accumulate st).n = st.n + ω.length := by
  induction ω with
  | nil => intro st; simp
  | cons o rest ih =>
    intro st
    simp [List.foldl, ih, accumulate]
    omega

/-- The record loop of a file is the accepted-observation fold, stopped at
the first decoding error (which is reported alongside). -/
lemma foldRecords_eq (est : Est) (fl : Fields) (sy : ℤ) (rs : List String) :
    ∀ st : State, foldRecords est fl sy st rs =
      (loopFold est st (acceptedOfRecords fl sy rs), recsErr fl sy rs) := by
  induction rs with
  | nil => intro st; rfl
  | cons r rest ih =>
    intro st
    unfold foldRecords acceptedOfRecords recsErr processRecord
    cases h : decodeRecord fl sy r with
    | ok o =>
      simp only [Except.map]
      rw [ih]
      unfold innerStep
      by_cases hv : validObs o
      · rw [if_pos hv, if_pos hv]
        rfl
      · rw [if_neg hv, if_neg hv]
        rfl
    | error e => rfl

/-- The per-file outcome (error of the file body, if any). -/
def fileErr (f : ZFile) : Option PyErr :=
  match selectFile f.name with
  | .skipName => some .valueError
  | .skipYear => some .zeroDivisionError
  | .missingYear _ => some .keyError
  | .proceed sy fl =>
    match f.members with
    | [m] => recsErr fl sy m
    | _ => some .assertionError

lemma processFile_eq (est : Est) (st : State) (f : ZFile) :
    processFile est st f = (loopFold est st (acceptedOfFile f), fileErr f) := by
  unfold processFile acceptedOfFile fileErr
  cases hs : selectFile f.name with
  | skipName => rfl
  | skipYear => rfl
  | missingYear sy => rfl
  | proceed sy fl =>
    cases hm : f.members with
    | nil => rfl
    | cons m ms =>
      cases ms with
      | nil => exact foldRecords_eq est fl sy m st
      | cons m' ms' => rfl

lemma loopFold_append (est : Est) (st : State) (ω₁ ω₂ : List Obs) :
    loopFold est st (ω₁ ++ ω₂) = loopFold est (loopFold est st ω₁) ω₂ :=
  List.foldl_append ..

/-- A run that terminates normally has exactly the state obtained by folding
the accepted observation stream of its files. -/
lemma runFiles_ok (est : Est) (files : List ZFile) :
    ∀ (st st' : State), runFiles est st files = .ok st' →
      st' = loopFold est st (acceptedStream files) := by
  induction files with
  | nil =>
    intro st st' h
    simpa [runFiles, acceptedStream, loopFold] using (Except.ok.injEq .. ▸ h).symm
  | cons f fs ih =>
    intro st st' h
    have hstream : acceptedStream (f :: fs) = acceptedOfFile f ++ acceptedStream fs := by
      simp [acceptedStream]
    rw [hstream, loopFold_append]
    unfold runFiles at h
    rw [processFile_eq] at h
    revert h
    cases he : fileErr f with
    | none => exact fun h => ih _ _ h
    | some e =>
      cases e with
      | valueError => exact fun h => ih _ _ h
      | zeroDivisionError => exact fun h => ih _ _ h
      | assertionError => exact fun h => absurd h (by simp)
      | keyError => exact fun h => absurd h (by simp)
      | indexError => exact fun h => absurd h (by simp)
      | nameError => exact fun h => absurd h (by simp)

/-- The value claim C6 predicts for the coefficient variable `b` at the end
of a run whose accepted observation stream is `ω`: unassigned when fewer
than 10,000 observations were accepted, otherwise the estimate taken from
the accumulator as it stood after the first `10000·⌊|ω|/10000⌋` accepted
observations (the most recent progress report). -/
def bSpec (est : Est) (ω : List Obs) : Option Vec4 :=
  if ω.length < 10000 then none
  else
    some (est ((ω.take (10000 * (ω.length / 10000))).foldl accumulate initState).A
      ((ω.take (10000 * (ω.length / 10000))).foldl accumulate initState).z)

lemma loopFold_b (est : Est) (ω : List Obs) :
    (loopFold est initState ω).b = bSpec est ω := by
  induction ω using List.reverseRecOn with
  | nil => rfl
  | append_singleton ω o ih =>
    have hL : loopFold est initState (ω ++ [o]) =
        progressStep est (accumulate (loopFold est initState ω) o) := by
      simp [loopFold, List.foldl_append, loopStep]
    have hn : (loopFold est initState ω).n = ω.length := by
      have h1 := loopFold_acc est ω (rfl : initState.acc = initState.acc)
      have h2 := congrArg (fun t => t.2.2.2) h1
      simp only [State.acc] at h2
      rw [h2, foldl_accumulate_n]
      show 0 + ω.length = ω.length
      omega
    have hacc : (accumulate (loopFold est initState ω) o).acc =
        (((ω ++ [o]).foldl accumulate initState)).acc := by
      have h1 := loopFold_acc est ω (rfl : initState.acc = initState.acc)
      have h2 := accumulate_acc h1 o
      rw [List.foldl_append]
      exact h2
    have hlen : (ω ++ [o]).length = ω.length + 1 := by simp
    by_cases hdiv : (ω.length + 1) % 10000 = 0
    · -- a fresh progress report fires at this observation
      have hcond : (accumulate (loopFold est initState ω) o).n % 10000 = 0 ∧
          (accumulate (loopFold est initState ω) o).n ≠ 0 := by
        constructor
        · show ((loopFold est initState ω).n + 1) % 10000 = 0
          rw [hn]; exact hdiv
        · show (loopFold est initState ω).n + 1 ≠ 0
          omega
      rw [hL]
      unfold progressStep
      rw [if_pos hcond]
      unfold bSpec
      rw [hlen]
      rw [if_neg (by omega)]
      have htake : (ω ++ [o]).take (10000 * ((ω.length + 1) / 10000)) = ω ++ [o] := by
        have : 10000 * ((ω.length + 1) / 10000) = ω.length + 1 := by omega
        rw [this, ← hlen, List.take_length]
      rw [htake]
      have hA := congrArg (fun t => t.1) hacc
      have hz := congrArg (fun t => t.2.1) hacc
      simp only [State.acc] at hA hz
      rw [← hA, ← hz]
    · -- no report fires: `b` keeps its previous characterization
      have hcond : ¬((accumulate (loopFold est initState ω) o).n % 10000 = 0 ∧
          (accumulate (loopFold est initState ω) o).n ≠ 0) := by
        intro hc
        have h1 : (accumulate (loopFold est initState ω) o).n =
            (loopFold est initState ω).n + 1 := rfl
        rw [h1, hn] at hc
        exact hdiv hc.1
      rw [hL]
      unfold progressStep
      rw [if_neg hcond]
      have hb : (accumulate (loopFold est initState ω) o).b =
          (loopFold est initState ω).b := rfl
      rw [hb, ih]
      unfold bSpec
      rw [hlen]
      by_cases hsmall : ω.length < 10000
      · rw [if_pos hsmall, if_pos (by omega)]
      · rw [if_neg hsmall, if_neg (by omega)]
        have hk : 10000 * ((ω.length + 1) / 10000) = 10000 * (ω.length / 10000) := by
          omega
        have hkle : 10000 * (ω.length / 10000) ≤ ω.length := by omega
        rw [hk, List.take_append_of_le_length hkle]

lemma recsErr_append (fl : Fields) (sy : ℤ) (l₁ l₂ : List String)
    (h : recsErr fl sy l₁ = none) :
    recsErr fl sy (l₁ ++ l₂) = recsErr fl sy l₂ := by
  induction l₁ with
  | nil => rfl
  | cons r rs ih =>
    rw [List.cons_append]
    cases h' : decodeRecord fl sy r with
    | ok o =>
      have h2 : recsErr fl sy rs = none := by
        unfold recsErr at h
        rw [h'] at h
        exact h
      simp only [recsErr, h']
      exact ih h2
    | error e =>
      unfold recsErr at h
      rw [h'] at h
      simp at h

lemma acceptedOfRecords_append (fl : Fields) (sy : ℤ) (l₁ l₂ : List String)
    (h : recsErr fl sy l₁ = none) :
    acceptedOfRecords fl sy (l₁ ++ l₂) =
      acceptedOfRecords fl sy l₁ ++ acceptedOfRecords fl sy l₂ := by
  induction l₁ with
  | nil => rfl
  | cons r rs ih =>
    rw [List.cons_append]
    cases h' : decodeRecord fl sy r with
    | ok o =>
      have h2 : recsErr fl sy rs = none := by
        unfold recsErr at h
        rw [h'] at h
        exact h
      simp only [acceptedOfRecords, h']
      rw [ih h2, List.append_assoc]
    | error e =>
      unfold recsErr at h
      rw [h'] at h
      simp at h

/-- The per-file `except (ValueError, ZeroDivisionError)` clause: a file body
ending in one of the two caught classes hands its partial state to the rest
of the run. -/
lemma runFiles_cons_caught (est : Est) (st st' : State) (f : ZFile) (fs : List ZFile)
    (e : PyErr) (he : e = .valueError ∨ e = .zeroDivisionError)
    (h : processFile est st f = (st', some e)) :
    runFiles est st (f :: fs) = runFiles est st' fs := by
  rcases he with he | he <;> subst he <;> simp only [runFiles, h]

/-! ### Claim theorems -/

/-- Claim C1, counterexample.  The claim says a record whose field decoding
raises is skipped alone, with all subsequent records of the same file still
decoded and accumulable.  Concretely: a year-11 archive holding a malformed
record (`badRec`, non-numeric education field) followed by a perfectly valid
record (`goodRec`) ends the run in the *initial* state — the valid record was
never accumulated — although the same valid record alone yields `n = 1`. -/
theorem C1_counterexample :
    runFiles est₀ initState [⟨"aaaaaa11.zip", [[badRec, goodRec]]⟩] = .ok initState ∧
      runN [⟨"aaaaaa11.zip", [[goodRec]]⟩] = some 1 := by
  constructor
  · with_unfolding_all rfl
  · with_unfolding_all rfl

/-- Claim C1, amended: a decoder exception (`ValueError`) is caught at the
*file* level, not per-record.  A file whose record list is
`pre ++ bad :: rest`, where every record of `pre` decodes and `bad` raises
`ValueError`, contributes exactly the accepted observations of `pre`; `bad`
*and all of `rest`* are skipped, and the run continues with the remaining
files from that partial state. -/
theorem C1_amended (est : Est) (st : State) (name : String) (fl : Fields) (sy : ℤ)
    (pre rest : List String) (bad : String) (fs : List ZFile)
    (hsel : selectFile name = .proceed sy fl)
    (hpre : recsErr fl sy pre = none)
    (hbad : decodeRecord fl sy bad = .error .valueError) :
    runFiles est st (⟨name, [pre ++ bad :: rest]⟩ :: fs) =
      runFiles est (loopFold est st (acceptedOfRecords fl sy pre)) fs := by
  have herr : recsErr fl sy (pre ++ bad :: rest) = some .valueError := by
    rw [recsErr_append fl sy pre (bad :: rest) hpre]
    unfold recsErr
    rw [hbad]
  have hacc : acceptedOfRecords fl sy (pre ++ bad :: rest) = acceptedOfRecords fl sy pre := by
    rw [acceptedOfRecords_append fl sy pre (bad :: rest) hpre]
    have h0 : acceptedOfRecords fl sy (bad :: rest) = [] := by
      unfold acceptedOfRecords
      rw [hbad]
    rw [h0, List.append_nil]
  have hpf : processFile est st ⟨name, [pre ++ bad :: rest]⟩ =
      (loopFold est st (acceptedOfRecords fl sy pre), some .valueError) := by
    unfold processFile
    rw [hsel]
    show foldRecords est fl sy st (pre ++ bad :: rest) = _
    rw [foldRecords_eq, herr, hacc]
  exact runFiles_cons_caught est st _ _ fs _ (Or.inl rfl) hpf

/-- Claim C2, counterexample.  The claim says an archive with a member count
other than one is skipped with the run continuing.  Concretely: a two-member
year-11 archive aborts the whole run with an (uncaught) `AssertionError` —
the following file, which alone would contribute one observation, is never
processed. -/
theorem C2_counterexample :
    runErr [⟨"aaaaaa11.zip", [[], []]⟩, ⟨"aaaaaa11.zip", [[goodRec]]⟩] =
        some .assertionError ∧
      runN [⟨"aaaaaa11.zip", [[], []]⟩, ⟨"aaaaaa11.zip", [[goodRec]]⟩] = none ∧
      runN [⟨"aaaaaa11.zip", [[goodRec]]⟩] = some 1 := by
  refine ⟨?_, ?_, ?_⟩
  · with_unfolding_all rfl
  · with_unfolding_all rfl
  · with_unfolding_all rfl

/-- Claim C2, amended: a selected archive whose member count differs from one
fails `assert len(zipFileList) == 1`; the `AssertionError` is not among the
classes the per-file `except` catches, so the accumulator is left exactly as
it was before the file but the run *aborts* — no remaining file is
processed. -/
theorem C2_amended (est : Est) (st : State) (name : String)
    (members : List (List String)) (sy : ℤ) (fl : Fields) (fs : List ZFile)
    (hsel : selectFile name = .proceed sy fl)
    (hm : members.length ≠ 1) :
    processFile est st ⟨name, members⟩ = (st, some .assertionError) ∧
      runFiles est st (⟨name, members⟩ :: fs) = .error .assertionError := by
  have hpf : processFile est st ⟨name, members⟩ = (st, some .assertionError) := by
    unfold processFile
    rw [hsel]
    cases members with
    | nil => rfl
    | cons m ms =>
      cases ms with
      | nil => simp at hm
      | cons m' ms' => rfl
  refine ⟨hpf, ?_⟩
  simp only [runFiles, hpf]

/-- Witness for `C1_amended` at the concrete bad/good archive. -/
theorem C1_witness :
    runFiles est₀ initState [⟨"aaaaaa11.zip", [[badRec, goodRec]]⟩] =
      runFiles est₀ (loopFold est₀ initState (acceptedOfRecords fl11 11 [])) [] :=
  C1_amended est₀ initState "aaaaaa11.zip" fl11 11 [] [goodRec] badRec []
    (by with_unfolding_all rfl) rfl (by with_unfolding_all rfl)

/-- Witness for `C2_amended` at a concrete two-member archive. -/
theorem C2_witness :
    processFile est₀ initState ⟨"aaaaaa11.zip", [[], []]⟩ =
        (initState, some .assertionError) ∧
      runFiles est₀ initState [⟨"aaaaaa11.zip", [[], []]⟩] = .error .assertionError :=
  C2_amended est₀ initState "aaaaaa11.zip" [[], []] 11 fl11 []
    (by with_unfolding_all rfl) (by decide)

/-- Claim C3: a decoded observation is accumulated iff
`education < 9 ∧ income < 9 ∧ 0 < bmi < 99 ∧ health ≠ -1` (on acceptance the
state moves by `accumulate` followed by the periodic progress report, and `n`
grows by one); on rejection the state — in particular `A`, `z`, `sumSqrs`,
`n` — is exactly unchanged. -/
theorem C3_accept_iff (est : Est) (st : State) (o : Obs) :
    (o.education < 9 ∧ o.income < 9 ∧ 0 < o.bmi ∧ o.bmi < 99 ∧ o.health ≠ -1 →
      innerStep est st o = progressStep est (accumulate st o) ∧
        (innerStep est st o).n = st.n + 1) ∧
    (¬(o.education < 9 ∧ o.income < 9 ∧ 0 < o.bmi ∧ o.bmi < 99 ∧ o.health ≠ -1) →
      innerStep est st o = st) := by
  constructor
  · intro h
    have hv : validObs o := h
    constructor
    · unfold innerStep loopStep
      rw [if_pos hv]
    · unfold innerStep loopStep
      rw [if_pos hv]
      have h2 := congrArg (fun t => t.2.2.2) (progressStep_acc est (accumulate st o))
      simp only [State.acc] at h2
      exact h2
  · intro h
    have hv : ¬ validObs o := h
    unfold innerStep
    rw [if_neg hv]

/-- Witness for `C3_accept_iff`: the concrete observation `(4, 7, 18.5, 3)`
is accepted (state moves, `n` becomes 1) and `(9, 7, 1, 3)` is rejected
(state unchanged). -/
theorem C3_witness :
    (innerStep est₀ initState ⟨4, 7, 37/2, 3⟩ =
        progressStep est₀ (accumulate initState ⟨4, 7, 37/2, 3⟩) ∧
      (innerStep est₀ initState ⟨4, 7, 37/2, 3⟩).n = initState.n + 1) ∧
      innerStep est₀ initState ⟨9, 7, 1, 3⟩ = initState :=
  ⟨(C3_accept_iff est₀ initState ⟨4, 7, 37/2, 3⟩).1 (by norm_num),
   (C3_accept_iff est₀ initState ⟨9, 7, 1, 3⟩).2 (by norm_num)⟩

/-- Claim C4 (code bug): the health decoder's own post-condition assertion
fails on the single-character input `"0"` — it parses to 0, which the
`genhlth > 6` collapse does not map to −1, so `assert genhlth in
(-1, 1, 2, 3, 4, 5, 6)` raises instead of the claimed −1 return.  The
claim's positive examples do hold: `"3" → 3`, `"9" → -1`, blank → −1. -/
theorem C4_bug :
    getHlth "0" = .error .assertionError ∧ getHlth "3" = .ok 3 ∧
      getHlth "9" = .ok (-1) ∧ getHlth " " = .ok (-1) := by decide

/-- Claim C5: with a final state whose `b` is assigned, `n > 4`, and a
nonzero response-variance denominator, finalization computes
`ybar = z[0]/n`, residual variance `(sumSqrs - bᵀz)/(n - 4)`, adjusted
R² `1 - ((n-1)/(n-4))·(sumSqrs - bᵀz)/(sumSqrs - n·ybar²)`, and emits the
header `n, b0, inc, edu, bmi, r^2_adj` followed by `n`, the coefficients
rounded to 3 decimals, and the R² rounded to 3 decimals. -/
theorem C5_final_report (st : State) (bv : Vec4)
    (hb : st.b = some bv) (_hn : 4 < st.n)
    (_hvar : st.sumSqrs - (st.n : ℚ) * (st.z 0 / (st.n : ℚ)) ^ 2 ≠ 0) :
    finalize st = .ok
      { ybar := st.z 0 / (st.n : ℚ)
        varEst := (st.sumSqrs - dotv bv st.z) / ((st.n : ℚ) - 4)
        rAdj := 1 - (((st.n : ℚ) - 1) / ((st.n : ℚ) - 4)) *
          ((st.sumSqrs - dotv bv st.z) /
            (st.sumSqrs - (st.n : ℚ) * (st.z 0 / (st.n : ℚ)) ^ 2))
        header := ["n", "b0", "inc", "edu", "bmi", "r^2_adj"]
        rowN := st.n
        rowB := fun i => round3 (bv i)
        rowR2 := round3 (1 - (((st.n : ℚ) - 1) / ((st.n : ℚ) - 4)) *
          ((st.sumSqrs - dotv bv st.z) /
            (st.sumSqrs - (st.n : ℚ) * (st.z 0 / (st.n : ℚ)) ^ 2))) } := by
  unfold finalize
  rw [hb]

/-- A concrete final state for the `C5_final_report` witness:
`z = (10,0,0,0)`, `sumSqrs = 30`, `n = 5`, `b = (1,0,0,0)`. -/
def stFin : State := ⟨fun _ _ => 0, ![10, 0, 0, 0], 30, 5, some ![1, 0, 0, 0]⟩

/-- Witness for `C5_final_report` at `stFin` (there `ybar = 2`,
`varEst = 20`, `rAdj = -7`). -/
theorem C5_witness :
    finalize stFin = .ok
      { ybar := stFin.z 0 / (stFin.n : ℚ)
        varEst := (stFin.sumSqrs - dotv ![1, 0, 0, 0] stFin.z) / ((stFin.n : ℚ) - 4)
        rAdj := 1 - (((stFin.n : ℚ) - 1) / ((stFin.n : ℚ) - 4)) *
          ((stFin.sumSqrs - dotv ![1, 0, 0, 0] stFin.z) /
            (stFin.sumSqrs - (stFin.n : ℚ) * (stFin.z 0 / (stFin.n : ℚ)) ^ 2))
        header := ["n", "b0", "inc", "edu", "bmi", "r^2_adj"]
        rowN := stFin.n
        rowB := fun i => round3 (![1, 0, 0, 0] i)
        rowR2 := round3 (1 - (((stFin.n : ℚ) - 1) / ((stFin.n : ℚ) - 4)) *
          ((stFin.sumSqrs - dotv ![1, 0, 0, 0] stFin.z) /
            (stFin.sumSqrs - (stFin.n : ℚ) * (stFin.z 0 / (stFin.n : ℚ)) ^ 2))) } :=
  C5_final_report stFin ![1, 0, 0, 0] rfl (by norm_num [stFin])
    (by norm_num [stFin, Matrix.cons_val_zero])

/-- Claim C6: the `b` used by finalization is never recomputed from the
final accumulator — at the end of a normally-terminated run it carries
exactly `bSpec`: `none` (never assigned) when fewer than 10,000 observations
were accepted, in which case finalization raises `NameError` instead of
emitting a summary; otherwise the estimate taken at the most recent
10,000-observation progress report, i.e. computed from only the first
`10000·⌊n/10000⌋` accepted observations. -/
theorem C6_stale_b (est : Est) (files : List ZFile) (st' : State)
    (h : runFiles est initState files = .ok st') :
    st'.n = (acceptedStream files).length ∧
      st'.b = bSpec est (acceptedStream files) ∧
      (st'.n < 10000 → st'.b = none ∧ finalize st' = .error .nameError) := by
  have he := runFiles_ok est files initState st' h
  subst he
  have hn : (loopFold est initState (acceptedStream files)).n =
      (acceptedStream files).length := by
    have h1 := loopFold_acc est (acceptedStream files)
      (rfl : initState.acc = initState.acc)
    have h2 := congrArg (fun t => t.2.2.2) h1
    simp only [State.acc] at h2
    rw [h2, foldl_accumulate_n]
    show 0 + _ = _
    omega
  refine ⟨hn, loopFold_b est _, fun hsmall => ?_⟩
  have hlen : (acceptedStream files).length < 10000 := by
    rw [← hn]
    exact hsmall
  have hb := loopFold_b est (acceptedStream files)
  unfold bSpec at hb
  rw [if_pos hlen] at hb
  refine ⟨hb, ?_⟩
  unfold finalize
  rw [hb]

/-- Witness for `C6_stale_b` at the empty run (0 accepted observations:
`b` unassigned, finalization fails with `NameError`). -/
theorem C6_witness :
    initState.n = (acceptedStream []).length ∧
      initState.b = bSpec est₀ (acceptedStream []) ∧
      (initState.n < 10000 → initState.b = none ∧ finalize initState = .error .nameError) :=
  C6_stale_b est₀ [] initState rfl

lemma bmiStep_neg (s : String) (c : Prop) [Decidable c] (hc : ¬ c) (sc b : ℚ) :
    bmiStep s c sc b = pure b := if_neg hc

lemma bmiStep_pos (s : String) (c : Prop) [Decidable c] (hc : c) (sc b : ℚ) :
    bmiStep s c sc b = (floatE s).map (fun v => sc * v) := if_pos hc

lemma pure_bind_q (b : ℚ) (f : ℚ → Except PyErr ℚ) :
    (pure b : Except PyErr ℚ).bind f = f b := rfl

lemma pure_eq_ok_q (b : ℚ) : (pure b : Except PyErr ℚ) = .ok b := rfl

lemma ok_bind_q (b : ℚ) (f : ℚ → Except PyErr ℚ) :
    (Except.ok b : Except PyErr ℚ).bind f = f b := rfl

lemma ok_map_q (b : ℚ) (g : ℚ → ℚ) :
    (Except.ok b : Except PyErr ℚ).map g = .ok (g b) := rfl

/-- Claim C7: the BMI decoder returns 0 on any sentinel match or
unrecognized year generation (a negative year code, matching no branch);
otherwise it returns the parsed substring times the generation's scale
factor — `0.1` before 2001 (sentinel `"999"`), `0.0001` for 2001 (sentinel
`"999999"`), `0.01` for 2002–2010 (sentinel `"9999"`), `0.01` for 2011+
(all-blank sentinel).  In particular `"1850"` under the 2011+ rule gives
exactly `18.5` and `"0185"` under the pre-2001 rule gives exactly `18.5`. -/
theorem C7_convertBMI (s : String) (sy : ℤ) :
    ((sy = 0 ∧ s = "999") ∨ (sy = 1 ∧ s = "999999") ∨
        ((2 ≤ sy ∧ sy ≤ 10) ∧ s = "9999") ∨ (10 < sy ∧ s = "    ") ∨ sy < 0 →
      convertBMI s sy = .ok 0) ∧
    (∀ v : ℚ, pyFloat s = some v →
      (sy = 0 → s ≠ "999" → convertBMI s sy = .ok (1/10 * v)) ∧
      (sy = 1 → s ≠ "999999" → convertBMI s sy = .ok (1/10000 * v)) ∧
      (2 ≤ sy → sy ≤ 10 → s ≠ "9999" → convertBMI s sy = .ok (1/100 * v)) ∧
      (10 < sy → s ≠ "    " → convertBMI s sy = .ok (1/100 * v))) ∧
    convertBMI "1850" 11 = .ok (37/2) ∧ convertBMI "0185" 0 = .ok (37/2) := by
  refine ⟨?_, ?_, by with_unfolding_all decide, by with_unfolding_all decide⟩
  · intro h
    unfold convertBMI
    rcases h with ⟨h0, hs⟩ | ⟨h1, hs⟩ | ⟨⟨h2, h3⟩, hs⟩ | ⟨h4, hs⟩ | hneg
    · subst hs
      simp only [bmiStep_neg _ _ (fun hc => hc.2 rfl : ¬(sy = 0 ∧ "999" ≠ "999")),
        bmiStep_neg _ _ (fun hc => by omega : ¬(sy = 1 ∧ ("999" : String) ≠ "999999")),
        bmiStep_neg _ _ (fun hc => by omega : ¬((2 ≤ sy ∧ sy ≤ 10) ∧ ("999" : String) ≠ "9999")),
        bmiStep_neg _ _ (fun hc => by omega : ¬(10 < sy ∧ ("999" : String) ≠ "    ")),
        pure_bind_q, pure_eq_ok_q, ok_bind_q]
    · subst hs
      simp only [bmiStep_neg _ _ (fun hc => by omega : ¬(sy = 0 ∧ ("999999" : String) ≠ "999")),
        bmiStep_neg _ _ (fun hc => hc.2 rfl : ¬(sy = 1 ∧ "999999" ≠ "999999")),
        bmiStep_neg _ _ (fun hc => by omega : ¬((2 ≤ sy ∧ sy ≤ 10) ∧ ("999999" : String) ≠ "9999")),
        bmiStep_neg _ _ (fun hc => by omega : ¬(10 < sy ∧ ("999999" : String) ≠ "    ")),
        pure_bind_q, pure_eq_ok_q, ok_bind_q]
    · subst hs
      simp only [bmiStep_neg _ _ (fun hc => by omega : ¬(sy = 0 ∧ ("9999" : String) ≠ "999")),
        bmiStep_neg _ _ (fun hc => by omega : ¬(sy = 1 ∧ ("9999" : String) ≠ "999999")),
        bmiStep_neg _ _ (fun hc => hc.2 rfl : ¬((2 ≤ sy ∧ sy ≤ 10) ∧ "9999" ≠ "9999")),
        bmiStep_neg _ _ (fun hc => by omega : ¬(10 < sy ∧ ("9999" : String) ≠ "    ")),
        pure_bind_q, pure_eq_ok_q, ok_bind_q]
    · subst hs
      simp only [bmiStep_neg _ _ (fun hc => by omega : ¬(sy = 0 ∧ ("    " : String) ≠ "999")),
        bmiStep_neg _ _ (fun hc => by omega : ¬(sy = 1 ∧ ("    " : String) ≠ "999999")),
        bmiStep_neg _ _ (fun hc => by omega : ¬((2 ≤ sy ∧ sy ≤ 10) ∧ ("    " : String) ≠ "9999")),
        bmiStep_neg _ _ (fun hc => hc.2 rfl : ¬(10 < sy ∧ "    " ≠ "    ")),
        pure_bind_q, pure_eq_ok_q, ok_bind_q]
    · simp only [bmiStep_neg _ _ (fun hc => by omega : ¬(sy = 0 ∧ s ≠ "999")),
        bmiStep_neg _ _ (fun hc => by omega : ¬(sy = 1 ∧ s ≠ "999999")),
        bmiStep_neg _ _ (fun hc => by omega : ¬((2 ≤ sy ∧ sy ≤ 10) ∧ s ≠ "9999")),
        bmiStep_neg _ _ (fun hc => by omega : ¬(10 < sy ∧ s ≠ "    ")),
        pure_bind_q, pure_eq_ok_q, ok_bind_q]
  · intro v hv
    have hfv : floatE s = .ok v := by
      unfold floatE
      rw [hv]
    refine ⟨?_, ?_, ?_, ?_⟩
    · intro h0 hs
      unfold convertBMI
      simp only [bmiStep_pos _ _ (⟨h0, hs⟩ : sy = 0 ∧ s ≠ "999"),
        bmiStep_neg _ _ (fun hc => by omega : ¬(sy = 1 ∧ s ≠ "999999")),
        bmiStep_neg _ _ (fun hc => by omega : ¬((2 ≤ sy ∧ sy ≤ 10) ∧ s ≠ "9999")),
        bmiStep_neg _ _ (fun hc => by omega : ¬(10 < sy ∧ s ≠ "    ")),
        hfv, ok_map_q, ok_bind_q, pure_bind_q, pure_eq_ok_q, ok_bind_q]
    · intro h1 hs
      unfold convertBMI
      simp only [bmiStep_neg _ _ (fun hc => by omega : ¬(sy = 0 ∧ s ≠ "999")),
        bmiStep_pos _ _ (⟨h1, hs⟩ : sy = 1 ∧ s ≠ "999999"),
        bmiStep_neg _ _ (fun hc => by omega : ¬((2 ≤ sy ∧ sy ≤ 10) ∧ s ≠ "9999")),
        bmiStep_neg _ _ (fun hc => by omega : ¬(10 < sy ∧ s ≠ "    ")),
        hfv, ok_map_q, ok_bind_q, pure_bind_q, pure_eq_ok_q, ok_bind_q]
    · intro h2 h3 hs
      unfold convertBMI
      simp only [bmiStep_neg _ _ (fun hc => by omega : ¬(sy = 0 ∧ s ≠ "999")),
        bmiStep_neg _ _ (fun hc => by omega : ¬(sy = 1 ∧ s ≠ "999999")),
        bmiStep_pos _ _ (⟨⟨h2, h3⟩, hs⟩ : (2 ≤ sy ∧ sy ≤ 10) ∧ s ≠ "9999"),
        bmiStep_neg _ _ (fun hc => by omega : ¬(10 < sy ∧ s ≠ "    ")),
        hfv, ok_map_q, ok_bind_q, pure_bind_q, pure_eq_ok_q, ok_bind_q]
    · intro h4 hs
      unfold convertBMI
      simp only [bmiStep_neg _ _ (fun hc => by omega : ¬(sy = 0 ∧ s ≠ "999")),
        bmiStep_neg _ _ (fun hc => by omega : ¬(sy = 1 ∧ s ≠ "999999")),
        bmiStep_neg _ _ (fun hc => by omega : ¬((2 ≤ sy ∧ sy ≤ 10) ∧ s ≠ "9999")),
        bmiStep_pos _ _ (⟨h4, hs⟩ : 10 < sy ∧ s ≠ "    "),
        hfv, ok_map_q, ok_bind_q, pure_bind_q, pure_eq_ok_q, ok_bind_q]

/-- Witness for `C7_convertBMI`: the 2002–2010 sentinel `"9999"` decodes to
0 at year code 5, and `"1850"` decodes under the 2011+ rule to
`0.01 · 1850`. -/
theorem C7_witness :
    convertBMI "9999" 5 = .ok 0 ∧ convertBMI "1850" 11 = .ok (1/100 * 1850) :=
  ⟨(C7_convertBMI "9999" 5).1 (Or.inr (Or.inr (Or.inl ⟨⟨by norm_num, by norm_num⟩, rfl⟩))),
   ((C7_convertBMI "1850" 11).2.1 1850 (by with_unfolding_all rfl)).2.2.2
     (by norm_num) (by decide)⟩

lemma fieldDict_cases (sy : ℤ) :
    (sy = 11 ∨ sy = 12 ∨ sy = 13 ∨ sy = 14 → ∃ fl, fieldDict sy = some fl) ∧
      (¬(sy = 11 ∨ sy = 12 ∨ sy = 13 ∨ sy = 14) → fieldDict sy = none) := by
  unfold fieldDict
  constructor
  · intro h
    split_ifs with h1 h2 h3 h4
    · exact ⟨_, rfl⟩
    · exact ⟨_, rfl⟩
    · exact ⟨_, rfl⟩
    · exact ⟨_, rfl⟩
    · omega
  · intro h
    split_ifs with h1 h2 h3 h4
    · omega
    · omega
    · omega
    · omega
    · rfl

/-- Claim C8, counterexample.  The claim reads the year code from characters
7–8 (0-indexed) and predicts that a file is skipped whenever that substring
fails to parse, with every non-skipped file proceeding to record
processing.  For `"aaaaaa15bb.zip"` the claimed substring is `"5b"`
(unparseable ⇒ the claim predicts a skip and a continuing run), but the code
reads characters 6–7 (`"15"`), and since 15 is missing from the layout
table, the run aborts with an uncaught `KeyError` — the file is neither
skipped nor processed. -/
theorem C8_counterexample :
    pyInt (pySlice "aaaaaa15bb.zip" 7 9) = none ∧
      runErr [⟨"aaaaaa15bb.zip", [[goodRec]]⟩] = some .keyError ∧
      runN [⟨"aaaaaa15bb.zip", [[goodRec]]⟩] = none := by
  refine ⟨by with_unfolding_all rfl, by with_unfolding_all rfl, by with_unfolding_all rfl⟩

/-- Claim C8, amended: the two-digit year code is read from characters 6–7
(0-indexed), i.e. `filename[6:8]`; the file is skipped exactly when that
substring fails to parse as an integer or parses to a code below 11 (and a
skipped file leaves the run to continue unchanged); a file proceeds to
record processing exactly when the code is one of 11–14; any other parsed
code (15 or more) raises an uncaught `KeyError` that aborts the run. -/
theorem C8_amended (name : String) (est : Est) (st : State)
    (members : List (List String)) (fs : List ZFile) :
    ((selectFile name = .skipName ∨ selectFile name = .skipYear) ↔
      (pyInt (pySlice name 6 8) = none ∨
        ∃ sy, pyInt (pySlice name 6 8) = some sy ∧ sy < 11)) ∧
    ((selectFile name = .skipName ∨ selectFile name = .skipYear) →
      runFiles est st (⟨name, members⟩ :: fs) = runFiles est st fs) ∧
    ((∃ sy, selectFile name = .missingYear sy) →
      runFiles est st (⟨name, members⟩ :: fs) = .error .keyError) ∧
    ((∃ sy fl, selectFile name = .proceed sy fl) ↔
      (∃ sy, pyInt (pySlice name 6 8) = some sy ∧
        (sy = 11 ∨ sy = 12 ∨ sy = 13 ∨ sy = 14))) ∧
    ((∃ sy, selectFile name = .missingYear sy) ↔
      (∃ sy, pyInt (pySlice name 6 8) = some sy ∧ 11 ≤ sy ∧
        ¬(sy = 11 ∨ sy = 12 ∨ sy = 13 ∨ sy = 14))) := by
  cases hp : pyInt (pySlice name 6 8) with
  | none =>
    have hsel : selectFile name = .skipName := by
      simp only [selectFile, hp]
    have hpf : processFile est st ⟨name, members⟩ = (st, some .valueError) := by
      simp only [processFile, hsel]
    refine ⟨iff_of_true (Or.inl hsel) (Or.inl rfl), ?_, ?_, ?_, ?_⟩
    · exact fun _ => runFiles_cons_caught est st st _ fs .valueError (Or.inl rfl) hpf
    · rintro ⟨sy, hsy⟩
      rw [hsel] at hsy
      simp at hsy
    · constructor
      · rintro ⟨sy, fl, hsy⟩
        rw [hsel] at hsy
        simp at hsy
      · rintro ⟨sy, hsy, _⟩
        simp at hsy
    · constructor
      · rintro ⟨sy, hsy⟩
        rw [hsel] at hsy
        simp at hsy
      · rintro ⟨sy, hsy, _⟩
        simp at hsy
  | some sy =>
    by_cases hlt : sy < 11
    · have hsel : selectFile name = .skipYear := by
        simp only [selectFile, hp]
        rw [if_pos hlt]
      have hpf : processFile est st ⟨name, members⟩ = (st, some .zeroDivisionError) := by
        simp only [processFile, hsel]
      refine ⟨iff_of_true (Or.inr hsel) (Or.inr ⟨sy, rfl, hlt⟩), ?_, ?_, ?_, ?_⟩
      · exact fun _ =>
          runFiles_cons_caught est st st _ fs .zeroDivisionError (Or.inr rfl) hpf
      · rintro ⟨sy', hsy⟩
        rw [hsel] at hsy
        simp at hsy
      · constructor
        · rintro ⟨sy', fl', hsy⟩
          rw [hsel] at hsy
          simp at hsy
        · rintro ⟨sy', hsy', hmem⟩
          injection hsy' with heq
          omega
      · constructor
        · rintro ⟨sy', hsy⟩
          rw [hsel] at hsy
          simp at hsy
        · rintro ⟨sy', hsy', h11, _⟩
          injection hsy' with heq
          omega
    · by_cases hmem : sy = 11 ∨ sy = 12 ∨ sy = 13 ∨ sy = 14
      · obtain ⟨fl, hfl⟩ := (fieldDict_cases sy).1 hmem
        have hsel : selectFile name = .proceed sy fl := by
          simp only [selectFile, hp]
          rw [if_neg hlt, hfl]
        refine ⟨?_, ?_, ?_, iff_of_true ⟨sy, fl, hsel⟩ ⟨sy, rfl, hmem⟩, ?_⟩
        · constructor
          · rintro (h | h) <;> rw [hsel] at h <;> simp at h
          · rintro (h | ⟨sy', hsy', hlt'⟩)
            · simp at h
            · injection hsy' with heq
              omega
        · rintro (h | h) <;> rw [hsel] at h <;> simp at h
        · rintro ⟨sy', hsy⟩
          rw [hsel] at hsy
          simp at hsy
        · constructor
          · rintro ⟨sy', hsy⟩
            rw [hsel] at hsy
            simp at hsy
          · rintro ⟨sy', hsy', _, hnm⟩
            injection hsy' with heq
            subst heq
            exact absurd hmem hnm
      · have hfl := (fieldDict_cases sy).2 hmem
        have hsel : selectFile name = .missingYear sy := by
          simp only [selectFile, hp]
          rw [if_neg hlt, hfl]
        have hpf : processFile est st ⟨name, members⟩ = (st, some .keyError) := by
          simp only [processFile, hsel]
        refine ⟨?_, ?_, ?_, ?_, iff_of_true ⟨sy, hsel⟩ ⟨sy, rfl, by omega, hmem⟩⟩
        · constructor
          · rintro (h | h) <;> rw [hsel] at h <;> simp at h
          · rintro (h | ⟨sy', hsy', hlt'⟩)
            · simp at h
            · injection hsy' with heq
              omega
        · rintro (h | h) <;> rw [hsel] at h <;> simp at h
        · intro _
          simp only [runFiles, hpf]
        · constructor
          · rintro ⟨sy', fl', hsy⟩
            rw [hsel] at hsy
            simp at hsy
          · rintro ⟨sy', hsy', hmem'⟩
            injection hsy' with heq
            subst heq
            exact absurd hmem' hmem

/-- Witness for `C8_amended`: year code 10 (`"aaaaaa10xx.zip"`) is skipped
with the run continuing; year code 15 (`"aaaaaa15bb.zip"`) aborts the run
with `KeyError`. -/
theorem C8_witness :
    runFiles est₀ initState [⟨"aaaaaa10xx.zip", [[goodRec]]⟩] =
        runFiles est₀ initState [] ∧
      runFiles est₀ initState [⟨"aaaaaa15bb.zip", []⟩] = .error .keyError :=
  ⟨(C8_amended "aaaaaa10xx.zip" est₀ initState [[goodRec]] []).2.1
      (Or.inr (by with_unfolding_all rfl)),
   (C8_amended "aaaaaa15bb.zip" est₀ initState [] []).2.2.1
      ⟨15, by with_unfolding_all rfl⟩⟩

/-- Claim C9: the accumulate update (`A += x·xᵀ`, `z += x·y`,
`sumSqrs += y²`, `n += 1`) applied to the zero initial state is
permutation-invariant — any two orderings of the same observations produce
identical final `(A, z, sumSqrs, n)` (and `b`, untouched by `accumulate`). -/
theorem C9_perm_invariant (l₁ l₂ : List Obs) (h : l₁.Perm l₂) :
    l₁.foldl accumulate initState = l₂.foldl accumulate initState :=
  foldl_accumulate_perm h initState

/-- Witness for `C9_perm_invariant` on a concrete two-element swap. -/
theorem C9_witness :
    [(⟨1, 2, 3, 4⟩ : Obs), ⟨5, 6, 7, 8⟩].foldl accumulate initState =
      [(⟨5, 6, 7, 8⟩ : Obs), ⟨1, 2, 3, 4⟩].foldl accumulate initState :=
  C9_perm_invariant _ _ (List.Perm.swap (⟨5, 6, 7, 8⟩ : Obs) (⟨1, 2, 3, 4⟩ : Obs) [])

/-- Claim C10: the education decoder returns sentinel 9 on its (single
character wide, per the field layout) blank input and otherwise behaves as
`int(...)` — the parsed integer, or a raised `ValueError` on non-numeric
non-blank input; the income decoder returns sentinel 9 exactly on the
two-blank string and otherwise behaves as `int(...)`; in particular
`"07"` parses to 7. -/
theorem C10_decoders (s : String) :
    ((∀ c ∈ s.toList, c = ' ') → s.toList.length = 1 → getEducation s = .ok 9) ∧
    (s ≠ " " → getEducation s = intE s) ∧
    (getIncome "  " = .ok 9) ∧
    (s ≠ "  " → getIncome s = intE s) ∧
    (getIncome "07" = .ok 7) := by
  refine ⟨?_, ?_, by decide, ?_, by decide⟩
  · intro hall hlen
    obtain ⟨data⟩ := s
    cases data with
    | nil => simp [String.toList] at hlen
    | cons c rest =>
      cases rest with
      | nil =>
        have hc : c = ' ' := hall c (by simp [String.toList])
        subst hc
        decide
      | cons c' rest' => simp [String.toList] at hlen
  · intro h
    unfold getEducation
    rw [if_pos h]
  · intro h
    unfold getIncome
    rw [if_pos h]

/-- Witness for `C10_decoders`: blank education gives 9, `"07"` income gives
7, and a non-numeric education character defers to `int` (which raises). -/
theorem C10_witness :
    getEducation " " = .ok 9 ∧ getIncome "07" = .ok 7 ∧ getEducation "X" = intE "X" :=
  ⟨(C10_decoders " ").1 (by decide) (by decide),
   (C10_decoders "07").2.2.2.2,
   (C10_decoders "X").2.1 (by decide)⟩
